/-
Verification of the xhMPEG conversion-orchestration frontend.

This development shallowly embeds the TypeScript source of the repository:
  * src/src/utils/mediaUtils.ts  (evenDimension, buildResolutionOptions, joinPaths)
  * src/src/App.tsx              (option resolver memos, size estimator,
                                  trim-handle pointer logic, run_conversion payload)
  * the revised App component embedded in mediaUtils.ts (codec selection
    and the run_conversion codec fields)
JavaScript numbers are modelled as exact rationals (ℚ); all inputs exercised
here are small dyadic values for which JS double arithmetic is exact.
JavaScript values that can be `undefined`/`null`/`NaN` are modelled as
`Option ℚ` (`none` for an absent or non-finite value, which is exactly the
set of values the source filters out with `Number.isFinite`).
-/
import Mathlib

namespace XhMPEG

/-- JS `Math.round`: rounds half toward positive infinity. -/
def jsRound (q : ℚ) : ℤ := ⌊q + 1/2⌋

/-- JS truthiness of a `number | null | undefined` value:
truthy iff present and nonzero. -/
def jsTruthy (o : Option ℚ) : Bool :=
  match o with
  | none => false
  | some x => x != 0

/-- Consume a leading run of decimal digits, MSD-first, threading an
accumulator; returns the accumulated value and the unconsumed remainder. -/
def digitsAcc (acc : ℕ) : List Char → ℕ × List Char
  | [] => (acc, [])
  | c :: rest =>
      if c.isDigit then digitsAcc (acc * 10 + (c.toNat - 48)) rest
      else (acc, c :: rest)

/-- Split an optional leading sign, returning the sign as `1` or `-1`. -/
def signSplit : List Char → ℤ × List Char
  | '-' :: rest => (-1, rest)
  | '+' :: rest => (1, rest)
  | cs => (1, cs)

def isJsSpace (c : Char) : Bool :=
  c = ' ' || c = '\t' || c = '\n' || c = '\r'

/-- JS `parseInt(s, 10)`: skip whitespace, optional sign, then the longest
run of decimal digits; `none` models the `NaN` result (no digits), which is
precisely what `Number.isFinite` later rejects. -/
def jsParseIntDec (s : String) : Option ℤ :=
  let cs := s.data.dropWhile isJsSpace
  let (sign, cs) := signSplit cs
  match cs with
  | [] => none
  | c :: _ =>
      if c.isDigit then some (sign * (digitsAcc 0 cs).1) else none

/-- JS `parseFloat(s)`: skip whitespace, optional sign, decimal digits with an
optional fractional part; `none` models `NaN`.  (Exponent notation is not
modelled; no caller in this development feeds exponent strings.) -/
def jsParseFloat (s : String) : Option ℚ :=
  let cs := s.data.dropWhile isJsSpace
  let (sign, cs) := signSplit cs
  let (ipart, rest) := digitsAcc 0 cs
  let intLen := cs.length - rest.length
  match rest with
  | '.' :: frest =>
      let (fpart, frest2) := digitsAcc 0 frest
      let fracLen := frest.length - frest2.length
      if intLen = 0 ∧ fracLen = 0 then none
      else some ((sign : ℚ) * ((ipart : ℚ) + (fpart : ℚ) / (10 ^ fracLen)))
  | _ =>
      if intLen = 0 then none else some ((sign : ℚ) * (ipart : ℚ))

example : jsParseIntDec "0" = some 0 := by decide
example : jsParseIntDec "-12" = some (-12) := by decide
example : jsParseIntDec "abc" = none := by decide

/-! ## mediaUtils.ts -/

/-- `evenDimension` (mediaUtils.ts:39-42): round to the nearest integer
(half up, JS `Math.round`), then add 1 when the result is odd. -/
def evenDimension (value : ℚ) : ℤ :=
  let rounded := jsRound value
  if rounded % 2 = 0 then rounded else rounded + 1

/-- One entry of the resolution-preset list (the display `label` string is
presentation-only and omitted from the embedding). -/
structure ResOption where
  value : String
  width : Option ℚ
  height : Option ℚ
deriving DecidableEq, Repr

/-- The `${o.width}x${o.height}` dedup key.  The TS key string is an
injective image of this pair (decimal renderings separated by a letter that
occurs in neither), so pair equality coincides with key-string equality. -/
def dimKey (o : ResOption) : Option ℚ × Option ℚ := (o.width, o.height)

/-- The `for (const o of opts) { if (!seen.has(key)) ... }` dedup loop of
`buildResolutionOptions` (mediaUtils.ts:64-72), with the `seen` set carried
as a list of keys. -/
def dedupeByKey : List ResOption → List (Option ℚ × Option ℚ) → List ResOption
  | [], _ => []
  | o :: rest, seen =>
      if dimKey o ∈ seen then dedupeByKey rest seen
      else o :: dedupeByKey rest (dimKey o :: seen)

/-- The four-candidate preset list built inside `buildResolutionOptions`
(mediaUtils.ts:45-62), before de-duplication. -/
def resOptionCandidates (sourceWidth sourceHeight : ℚ) : List ResOption :=
  let scaleOption (factor : ℚ) (key : String) : ResOption :=
    { value := key,
      width := some ((evenDimension (sourceWidth * factor) : ℤ) : ℚ),
      height := some ((evenDimension (sourceHeight * factor) : ℤ) : ℚ) }
  [ scaleOption 1.25 "scale_125",
    { value := "source", width := some sourceWidth, height := some sourceHeight },
    scaleOption 0.75 "scale_75",
    scaleOption 0.5 "scale_50" ]

/-- `buildResolutionOptions` (mediaUtils.ts:44-74). -/
def buildResolutionOptions (sourceWidth sourceHeight : ℚ) : List ResOption :=
  dedupeByKey (resOptionCandidates sourceWidth sourceHeight) []

example : buildResolutionOptions 1920 1080 =
    [ { value := "scale_125", width := some 2400, height := some 1350 },
      { value := "source", width := some 1920, height := some 1080 },
      { value := "scale_75", width := some 1440, height := some 810 },
      { value := "scale_50", width := some 960, height := some 540 } ] := by
  norm_num [buildResolutionOptions, resOptionCandidates, dedupeByKey, dimKey,
    evenDimension, jsRound]

example : buildResolutionOptions 2 2 =
    [ { value := "scale_125", width := some 4, height := some 4 },
      { value := "source", width := some 2, height := some 2 } ] := by
  norm_num [buildResolutionOptions, resOptionCandidates, dedupeByKey, dimKey,
    evenDimension, jsRound]

/-- `joinPaths` (mediaUtils.ts:1-8 and App.tsx:74-81). -/
def joinPaths (dir file : String) : String :=
  if dir = "" then file
  else if dir.endsWith "/" || dir.endsWith "\\" then dir ++ file
  else
    let sep := if dir.contains '\\' then "\\" else "/"
    dir ++ sep ++ file

/-! ## App.tsx: data model and preset tables -/

/-- `MediaInfo` (App.tsx:8-15): the probed characteristics of the input. -/
structure MediaInfo where
  duration_seconds : ℚ
  width : Option ℚ
  height : Option ℚ
  fps : Option ℚ
  bitrate_kbps : Option ℚ
  has_video : Bool
deriving DecidableEq, Repr

/-- `NumericPreset` (App.tsx:17-21). -/
structure NumericPreset where
  label : String
  value : String
  amount : Option ℚ
deriving DecidableEq, Repr

/-- `FormatOption` (App.tsx:23-27). -/
structure FormatOption where
  label : String
  value : String
  ext : String
deriving DecidableEq, Repr

/-- `FPS_PRESETS` (App.tsx:29-34). -/
def FPS_PRESETS : List NumericPreset :=
  [ { label := "60 fps", value := "60", amount := some 60 },
    { label := "30 fps", value := "30", amount := some 30 },
    { label := "24 fps", value := "24", amount := some 24 },
    { label := "Custom", value := "custom", amount := none } ]

/-- `VIDEO_BITRATE_PRESETS` (App.tsx:36-43). -/
def VIDEO_BITRATE_PRESETS : List NumericPreset :=
  [ { label := "Source", value := "source", amount := none },
    { label := "8000 kbps", value := "8000", amount := some 8000 },
    { label := "6000 kbps", value := "6000", amount := some 6000 },
    { label := "4000 kbps", value := "4000", amount := some 4000 },
    { label := "2500 kbps", value := "2500", amount := some 2500 },
    { label := "Custom", value := "custom", amount := none } ]

/-- `AUDIO_BITRATE_PRESETS` (App.tsx:45-51). -/
def AUDIO_BITRATE_PRESETS : List NumericPreset :=
  [ { label := "Source", value := "source", amount := none },
    { label := "320 kbps", value := "320", amount := some 320 },
    { label := "192 kbps", value := "192", amount := some 192 },
    { label := "128 kbps", value := "128", amount := some 128 },
    { label := "Custom", value := "custom", amount := none } ]

/-- `FORMAT_OPTIONS` (App.tsx:53-61). -/
def FORMAT_OPTIONS : List FormatOption :=
  [ { label := "MP4", value := "mp4", ext := "mp4" },
    { label := "MKV", value := "mkv", ext := "mkv" },
    { label := "MOV", value := "mov", ext := "mov" },
    { label := "WebM", value := "webm", ext := "webm" },
    { label := "AVI", value := "avi", ext := "avi" },
    { label := "FLV", value := "flv", ext := "flv" },
    { label := "Animated GIF", value := "gif", ext := "gif" } ]

/-- `AUDIO_FORMAT_OPTIONS` (App.tsx:63-70). -/
def AUDIO_FORMAT_OPTIONS : List FormatOption :=
  [ { label := "MP3", value := "mp3", ext := "mp3" },
    { label := "WAV", value := "wav", ext := "wav" },
    { label := "FLAC", value := "flac", ext := "flac" },
    { label := "AAC (M4A)", value := "m4a", ext := "m4a" },
    { label := "OGG", value := "ogg", ext := "ogg" },
    { label := "Opus", value := "opus", ext := "opus" } ]

/-- Which trim handle is being dragged; `stop` models the `"end"` handle
(`end` is a Lean keyword). -/
inductive DragHandle where
  | start
  | stop
deriving DecidableEq, Repr

/-- The React state of the `App` component (App.tsx:135-165), restricted to
the fields the conversion orchestration reads.  Presentation-only state
(current wizard step, status text, flags for running dialogs) is omitted. -/
structure AppState where
  selectedFile : String
  mediaInfo : Option MediaInfo
  startMs : ℚ
  endMs : ℚ
  resolutionPreset : String
  customWidth : String
  customHeight : String
  resolutionOptions : List ResOption
  sourceResolution : Option (ℚ × ℚ)
  fpsPreset : String
  customFps : String
  sourceFps : Option ℚ
  videoBitratePreset : String
  customVideoBitrate : String
  sourceVideoBitrate : Option ℚ
  audioBitratePreset : String
  customAudioBitrate : String
  sourceAudioBitrate : Option ℚ
  outputDir : String
  outputFilename : String
  format : String
  dragging : Option DragHandle
deriving DecidableEq, Repr

/-! ## App.tsx: derived (memoized) values of the option resolver -/

/-- `durationMs` (App.tsx:205). -/
def durationMs (st : AppState) : ℚ :=
  match st.mediaInfo with
  | some mi => ((jsRound (mi.duration_seconds * 1000) : ℤ) : ℚ)
  | none => 0

/-- `isAudioOnly` (App.tsx:206). -/
def isAudioOnly (st : AppState) : Bool :=
  match st.mediaInfo with
  | some mi => !mi.has_video
  | none => false

/-- `clipLengthSeconds` (App.tsx:208-210). -/
def clipLengthSeconds (st : AppState) : ℚ :=
  max 0 ((st.endMs - st.startMs) / 1000)

/-- The record produced by the `resolution` memo (App.tsx:212-223). -/
structure ResolvedResolution where
  width : Option ℚ
  height : Option ℚ
deriving DecidableEq, Repr

/-- `resolution` (App.tsx:212-223): a preset found in `resolutionOptions`
resolves to its stored dimensions; otherwise (preset absent from the list, in
particular the `"custom"` preset) the raw width/height text is parsed, and a
non-finite parse (`NaN`, i.e. `none`) resolves to an absent dimension. -/
def resolution (st : AppState) : ResolvedResolution :=
  match st.resolutionOptions.find? (fun p => p.value == st.resolutionPreset) with
  | some p =>
      if p.value == "custom" then
        { width := (jsParseIntDec st.customWidth).map (fun n => (n : ℚ)),
          height := (jsParseIntDec st.customHeight).map (fun n => (n : ℚ)) }
      else
        { width := p.width, height := p.height }
  | none =>
      { width := (jsParseIntDec st.customWidth).map (fun n => (n : ℚ)),
        height := (jsParseIntDec st.customHeight).map (fun n => (n : ℚ)) }

/-- `fpsValue` (App.tsx:225-233). -/
def fpsValue (st : AppState) : Option ℚ :=
  if st.fpsPreset == "custom" then jsParseFloat st.customFps
  else if st.fpsPreset == "source" then st.sourceFps
  else (FPS_PRESETS.find? (fun p => p.value == st.fpsPreset)).bind (fun p => p.amount)

/-- `videoBitrateValue` (App.tsx:243-251). -/
def videoBitrateValue (st : AppState) : Option ℚ :=
  if st.videoBitratePreset == "custom" then
    (jsParseIntDec st.customVideoBitrate).map (fun n => (n : ℚ))
  else if st.videoBitratePreset == "source" then st.sourceVideoBitrate
  else (VIDEO_BITRATE_PRESETS.find? (fun p => p.value == st.videoBitratePreset)).bind
    (fun p => p.amount)

/-- `audioBitrateValue` (App.tsx:262-270). -/
def audioBitrateValue (st : AppState) : Option ℚ :=
  if st.audioBitratePreset == "custom" then
    (jsParseIntDec st.customAudioBitrate).map (fun n => (n : ℚ))
  else if st.audioBitratePreset == "source" then st.sourceAudioBitrate
  else (AUDIO_BITRATE_PRESETS.find? (fun p => p.value == st.audioBitratePreset)).bind
    (fun p => p.amount)

/-- `effectiveVideoBitrate` (App.tsx:272-280): the fps-ratio-scaled bitrate
used only by the size estimate.  `!videoBitrateValue` is JS-falsy for both
`undefined` and `0`; `sourceFps && fpsValue` requires both present and
nonzero. -/
def effectiveVideoBitrate (st : AppState) : ℚ :=
  if isAudioOnly st then 0
  else
    match videoBitrateValue st with
    | none => 0
    | some v =>
        if v = 0 then 0
        else
          match st.sourceFps, fpsValue st with
          | some sf, some f =>
              if sf = 0 ∨ f = 0 then v else ((jsRound (v * (f / sf)) : ℤ) : ℚ)
          | _, _ => v

/-- `formatOptions` (App.tsx:282). -/
def formatOptions (st : AppState) : List FormatOption :=
  if isAudioOnly st then AUDIO_FORMAT_OPTIONS else FORMAT_OPTIONS

instance : Inhabited FormatOption :=
  ⟨{ label := "MP4", value := "mp4", ext := "mp4" }⟩

/-- `currentFormat` (App.tsx:284-286): `formatOptions[0]` is the fallback;
both option tables are nonempty constants, so `headI` is their literal first
entry. -/
def currentFormat (st : AppState) : FormatOption :=
  match (formatOptions st).find? (fun f => f.value == st.format) with
  | some f => f
  | none => (formatOptions st).headI

/-- `formatSizeMultiplier` (App.tsx:288-320). -/
def formatSizeMultiplier (st : AppState) : ℚ :=
  if isAudioOnly st then
    if (currentFormat st).value == "wav" then 3.8
    else if (currentFormat st).value == "flac" then 0.7
    else if (currentFormat st).value == "opus" then 0.7
    else if (currentFormat st).value == "ogg" then 0.85
    else if (currentFormat st).value == "m4a" then 0.9
    else 1
  else
    if (currentFormat st).value == "webm" then 0.85
    else if (currentFormat st).value == "mkv" then 0.95
    else if (currentFormat st).value == "mov" then 1.05
    else if (currentFormat st).value == "avi" then 1.15
    else if (currentFormat st).value == "flv" then 1.1
    else if (currentFormat st).value == "gif" then 2.5
    else 1

/-- `resolutionScale` (App.tsx:329-345): ratio of target pixel area to source
pixel area, clamped to `[0.2, 1.5]`; `1` when any guard of the `&&` chain is
falsy (audio-only run, missing source resolution, absent or zero target
dimension, or non-positive source dimension). -/
def resolutionScale (st : AppState) : ℚ :=
  match st.sourceResolution, (resolution st).width, (resolution st).height with
  | some (sw, sh), some w, some h =>
      if !(isAudioOnly st) && w != 0 && h != 0 && sw > 0 && sh > 0 then
        let baseArea := sw * sh
        let targetArea := w * h
        let scale := targetArea / baseArea
        min 1.5 (max 0.2 scale)
      else 1
  | _, _, _ => 1

/-- The `outputFilename.replace(/\.[^/.]+$/, "")` step of `finalOutputPath`
(App.tsx:348): strip a trailing `.ext` where `ext` is nonempty and contains
neither `.` nor `/`. -/
def stripTrailingExt (s : String) : String :=
  let rev := s.data.reverse
  let ext := rev.takeWhile (fun c => c ≠ '.' && c ≠ '/')
  match rev.drop ext.length with
  | '.' :: rest => if ext.isEmpty then s else String.mk rest.reverse
  | _ => s

example : stripTrailingExt "clip.mp4" = "clip" := by decide
example : stripTrailingExt "clip" = "clip" := by decide
example : stripTrailingExt "a.b/c" = "a.b/c" := by decide

/-- `finalOutputPath` (App.tsx:347-352). -/
def finalOutputPath (st : AppState) : String :=
  let base := if stripTrailingExt st.outputFilename = "" then "output"
    else stripTrailingExt st.outputFilename
  let nameWithExt := base ++ "." ++ (currentFormat st).ext
  if st.outputDir = "" then nameWithExt
  else joinPaths st.outputDir nameWithExt

/-- The `totalKbps` local of `estimatedSizeText` (App.tsx:356). -/
def totalKbps (st : AppState) : ℚ :=
  effectiveVideoBitrate st * resolutionScale st + (audioBitrateValue st).getD 0

/-- `estimatedSizeText` (App.tsx:354-365) up to display formatting: `none`
models the `"--"` placeholder, `some b` the branch that renders `b` bytes as
an MB/GB string.  `!clipLengthSeconds` is `= 0` (the value is clamped `≥ 0`)
and `!totalKbps` is `= 0`. -/
def estimatedSizeBytes (st : AppState) : Option ℚ :=
  if clipLengthSeconds st = 0 then none
  else if totalKbps st = 0 then none
  else some (totalKbps st * formatSizeMultiplier st * 1000 * clipLengthSeconds st / 8)

/-- `handlePointerMove` (App.tsx:367-380), as a state transformer.  The
slider's bounding rectangle is passed as `rectLeft`/`rectWidth` (the source
reads it from the DOM node; `rectWidth > 0` for a rendered track).  Nothing
happens when no handle is being dragged or the duration is not positive. -/
def handlePointerMove (st : AppState) (clientX rectLeft rectWidth : ℚ) : AppState :=
  match st.dragging with
  | none => st
  | some handle =>
      if durationMs st ≤ 0 then st
      else
        let frac := min 1 (max 0 ((clientX - rectLeft) / rectWidth))
        let ms : ℚ := ((jsRound (frac * durationMs st) : ℤ) : ℚ)
        let stepMs : ℚ := 100
        match handle with
        | .start => { st with startMs := max 0 (min ms (st.endMs - stepMs)) }
        | .stop => { st with endMs := min (durationMs st) (max ms (st.startMs + stepMs)) }

/-- The `options` record passed to `invoke("run_conversion", ...)`
(App.tsx:489-502). -/
structure ConversionOptions where
  input_path : String
  output_path : String
  start_ms : ℤ
  end_ms : ℤ
  width : Option ℚ
  height : Option ℚ
  fps : Option ℚ
  video_bitrate_kbps : Option ℚ
  audio_bitrate_kbps : Option ℚ
  format : String
  is_audio_only : Bool
deriving DecidableEq, Repr

/-- `runConversion` (App.tsx:470-510) up to its invocation of the engine:
`none` models the early returns (no file picked / no probe result / no output
directory), `some opts` the record handed to `run_conversion`.  `null` fields
(`?? null`) are modelled by `none`. -/
def runConversionRequest (st : AppState) : Option ConversionOptions :=
  if st.selectedFile = "" ∨ st.mediaInfo = none then none
  else if st.outputDir = "" then none
  else some
    { input_path := st.selectedFile,
      output_path := finalOutputPath st,
      start_ms := jsRound st.startMs,
      end_ms := jsRound st.endMs,
      width := (resolution st).width,
      height := (resolution st).height,
      fps := fpsValue st,
      video_bitrate_kbps := videoBitrateValue st,
      audio_bitrate_kbps := audioBitrateValue st,
      format := (currentFormat st).value,
      is_audio_only := isAudioOnly st }

/-! ## Revised App component (embedded in mediaUtils.ts): codec selection

The copy of the App component carried inside src/src/utils/mediaUtils.ts
extends the resolver with codec selection (`enableCodecSelection`,
`selectedCodec`, `forceAudioOnly`) and adds `video_codec` / `audio_codec`
fields to the `run_conversion` payload (mediaUtils.ts:706-722). -/

/-- `VIDEO_CODECS_BY_FORMAT` (mediaUtils.ts:146-154), as an association
list. -/
def VIDEO_CODECS_BY_FORMAT : List (String × List String) :=
  [ ("mp4", ["libx264", "libx265"]),
    ("mov", ["libx264", "libx265", "prores_ks", "mjpeg"]),
    ("mkv", ["libx264", "libx265", "libvpx-vp9", "prores_ks", "mjpeg"]),
    ("webm", ["libvpx-vp9"]),
    ("avi", ["libx264", "mjpeg"]),
    ("flv", ["libx264"]),
    ("gif", ["gif"]) ]

/-- `AUDIO_CODECS_BY_FORMAT` (mediaUtils.ts:156-170), as an association
list. -/
def AUDIO_CODECS_BY_FORMAT : List (String × List String) :=
  [ ("mp4", ["aac", "libmp3lame"]),
    ("mov", ["aac"]),
    ("mkv", ["aac", "libopus", "libvorbis", "libmp3lame", "flac"]),
    ("webm", ["libopus", "libvorbis"]),
    ("avi", ["libmp3lame"]),
    ("flv", ["aac"]),
    ("gif", []),
    ("mp3", ["libmp3lame"]),
    ("wav", ["pcm_s16le"]),
    ("flac", ["flac"]),
    ("m4a", ["aac"]),
    ("ogg", ["libvorbis"]),
    ("opus", ["libopus"]) ]

/-- `getAvailableCodecs` (mediaUtils.ts:325-330): table lookup with `?? []`
fallback. -/
def getAvailableCodecs (fmt : String) (audioOnly : Bool) : List String :=
  let table := if audioOnly then AUDIO_CODECS_BY_FORMAT else VIDEO_CODECS_BY_FORMAT
  match table.find? (fun e => e.1 == fmt) with
  | some e => e.2
  | none => []

/-- The codec-state slice of the revised App component
(mediaUtils.ts:260-286): probe result, the extract-audio-only toggle and the
codec-selection setting. -/
structure CodecState where
  hasVideoSource : Bool
  forceAudioOnly : Bool
  enableCodecSelection : Bool
  selectedCodec : String
  format : String
deriving DecidableEq, Repr

/-- `isAudioOnly` of the revised component (mediaUtils.ts:322):
`!hasVideoSource || forceAudioOnly`. -/
def isAudioOnlyV2 (cs : CodecState) : Bool :=
  !cs.hasVideoSource || cs.forceAudioOnly

/-- The codec-selection effect (mediaUtils.ts:676-687): clears the selection
when codec selection is disabled or the permitted list is empty, snaps to the
first permitted codec when the current selection is not permitted. -/
def codecSelectionEffect (cs : CodecState) : CodecState :=
  if !cs.enableCodecSelection then { cs with selectedCodec := "" }
  else
    match getAvailableCodecs cs.format (isAudioOnlyV2 cs) with
    | [] => { cs with selectedCodec := "" }
    | c :: rest =>
        if cs.selectedCodec ∈ c :: rest then cs
        else { cs with selectedCodec := c }

/-- The `video_codec` field of the revised `run_conversion` payload
(mediaUtils.ts:719): `enableCodecSelection && !isAudioOnly && selectedCodec ?
selectedCodec : null`, where a string is truthy iff nonempty. -/
def videoCodecField (cs : CodecState) : Option String :=
  if cs.enableCodecSelection && !(isAudioOnlyV2 cs) && cs.selectedCodec != "" then
    some cs.selectedCodec
  else none

/-- The `audio_codec` field of the revised `run_conversion` payload
(mediaUtils.ts:720): `enableCodecSelection && isAudioOnly && selectedCodec ?
selectedCodec : null`. -/
def audioCodecField (cs : CodecState) : Option String :=
  if cs.enableCodecSelection && isAudioOnlyV2 cs && cs.selectedCodec != "" then
    some cs.selectedCodec
  else none

/-! ## Process Supervisor (modelled from the spec)

The supervisor is implemented by the Tauri backend (`run_conversion` /
`analyze_media` commands), whose Rust source is not part of the frontend
tree under src/.  The model below follows spec sections 4.5 and 5. -/

/-- Terminal states of a conversion run (spec 4.5). -/
inductive Terminal where
  | succeeded (outputPath : String)
  | failed (diagnosticTail : String)
  | cancelled
deriving DecidableEq, Repr

/-- Events a conversion run can observe, in the order the supervisor
processes them: a caller cancellation request, a spawn failure, or the child
process exiting with a code and a diagnostic tail. -/
inductive SupEvent where
  | cancelRequest
  | spawnFail (diagnosticTail : String)
  | procExit (code : ℤ) (diagnosticTail : String)
deriving DecidableEq, Repr

/-- An event is run-ending iff the process reached an exit or failed to
spawn (a cancellation request only signals the child, which then exits). -/
def isProcEnd : SupEvent → Bool
  | .cancelRequest => false
  | .spawnFail _ => true
  | .procExit _ _ => true

/-- Modelled from the spec: the supervisor state for one `ConversionHandle`
(spec 4.5, 5) — whether cancellation was requested, and the terminal state
already reported, if any.  The Rust implementation is not under src/. -/
structure SupState where
  cancelRequested : Bool
  reported : Option Terminal
deriving DecidableEq, Repr

/-- Modelled from the spec: one supervisor step (spec 4.5): after a terminal
state has been reported nothing further is reported; a cancellation request
is recorded; a spawn failure reports `failed`; a process exit reports
`cancelled` when cancellation was requested before it, otherwise `succeeded`
on exit code zero and `failed` on a nonzero code. -/
def supStep (outputPath : String) (st : SupState) (e : SupEvent) :
    SupState × Option Terminal :=
  match st.reported with
  | some _ => (st, none)
  | none =>
      match e with
      | .cancelRequest => ({ st with cancelRequested := true }, none)
      | .spawnFail tail =>
          let t := Terminal.failed tail
          ({ st with reported := some t }, some t)
      | .procExit code tail =>
          let t := if st.cancelRequested then Terminal.cancelled
            else if code = 0 then Terminal.succeeded outputPath
            else Terminal.failed tail
          ({ st with reported := some t }, some t)

/-- Modelled from the spec: the terminal states reported while processing a
list of events from a given supervisor state, in order. -/
def supRunFrom (outputPath : String) (st : SupState) : List SupEvent → List Terminal
  | [] => []
  | e :: rest =>
      match supStep outputPath st e with
      | (st', some t) => t :: supRunFrom outputPath st' rest
      | (st', none) => supRunFrom outputPath st' rest

/-- Modelled from the spec: the terminal states reported over a whole run,
starting from the initial handle state (no cancellation requested, nothing
reported). -/
def supRun (outputPath : String) (events : List SupEvent) : List Terminal :=
  supRunFrom outputPath { cancelRequested := false, reported := none } events

/-! ## Helper lemmas: the dedup loop and evenDimension -/

theorem mem_of_mem_dedupeByKey {o : ResOption} :
    ∀ {l : List ResOption} {seen : List (Option ℚ × Option ℚ)},
      o ∈ dedupeByKey l seen → o ∈ l := by
  intro l
  induction l with
  | nil => intro seen h; simp [dedupeByKey] at h
  | cons a t ih =>
      intro seen h
      rw [dedupeByKey] at h
      split at h
      · exact List.mem_cons_of_mem a (ih h)
      · rcases List.mem_cons.mp h with h | h
        · exact h ▸ List.mem_cons_self a t
        · exact List.mem_cons_of_mem a (ih h)

theorem dimKey_not_mem_seen_of_mem_dedupeByKey {o : ResOption} :
    ∀ {l : List ResOption} {seen : List (Option ℚ × Option ℚ)},
      o ∈ dedupeByKey l seen → dimKey o ∉ seen := by
  intro l
  induction l with
  | nil => intro seen h; simp [dedupeByKey] at h
  | cons a t ih =>
      intro seen h
      rw [dedupeByKey] at h
      split at h
      · exact ih h
      · next hkey =>
          rcases List.mem_cons.mp h with h | h
          · exact h ▸ hkey
          · intro hin
            exact ih h (List.mem_cons_of_mem _ hin)

theorem nodup_map_dimKey_dedupeByKey :
    ∀ (l : List ResOption) (seen : List (Option ℚ × Option ℚ)),
      ((dedupeByKey l seen).map dimKey).Nodup := by
  intro l
  induction l with
  | nil => intro seen; simp [dedupeByKey]
  | cons a t ih =>
      intro seen
      rw [dedupeByKey]
      split
      · exact ih seen
      · simp only [List.map_cons, List.nodup_cons]
        refine ⟨?_, ih (dimKey a :: seen)⟩
        intro hmem
        rcases List.mem_map.mp hmem with ⟨o, ho, hko⟩
        exact dimKey_not_mem_seen_of_mem_dedupeByKey ho (hko ▸ List.mem_cons_self _ _)

theorem mem_dedupeByKey_iff {o : ResOption} :
    ∀ {l : List ResOption} {seen : List (Option ℚ × Option ℚ)},
      o ∈ dedupeByKey l seen ↔
        ∃ l1 l2, l = l1 ++ o :: l2 ∧ dimKey o ∉ seen ∧
          ∀ o' ∈ l1, dimKey o' ≠ dimKey o := by
  intro l
  induction l with
  | nil =>
      intro seen
      constructor
      · intro h; simp [dedupeByKey] at h
      · rintro ⟨l1, l2, heq, -, -⟩
        exact absurd heq (by simp)
  | cons a t ih =>
      intro seen
      rw [dedupeByKey]
      split
      · next hseen =>
          rw [ih]
          constructor
          · rintro ⟨l1, l2, heq, hnot, hpre⟩
            refine ⟨a :: l1, l2, by rw [heq]; rfl, hnot, ?_⟩
            intro o' ho'
            rcases List.mem_cons.mp ho' with h | h
            · subst h; intro hk; exact hnot (hk ▸ hseen)
            · exact hpre o' h
          · rintro ⟨l1, l2, heq, hnot, hpre⟩
            cases l1 with
            | nil =>
                simp only [List.nil_append, List.cons.injEq] at heq
                exact absurd (heq.1 ▸ hseen) hnot
            | cons b l1 =>
                simp only [List.cons_append, List.cons.injEq] at heq
                exact ⟨l1, l2, heq.2, hnot,
                  fun o' h => hpre o' (List.mem_cons_of_mem b h)⟩
      · next hseen =>
          constructor
          · intro h
            rcases List.mem_cons.mp h with h | h
            · subst h
              exact ⟨[], t, rfl, hseen, by simp⟩
            · rcases ih.mp h with ⟨l1, l2, heq, hnot, hpre⟩
              have hne : dimKey o ≠ dimKey a := by
                intro hk
                exact hnot (hk ▸ List.mem_cons_self _ _)
              refine ⟨a :: l1, l2, by rw [heq]; rfl,
                fun hk => hnot (List.mem_cons_of_mem _ hk), ?_⟩
              intro o' ho'
              rcases List.mem_cons.mp ho' with h' | h'
              · subst h'; exact fun hk => hne hk.symm
              · exact hpre o' h'
          · rintro ⟨l1, l2, heq, hnot, hpre⟩
            cases l1 with
            | nil =>
                simp only [List.nil_append, List.cons.injEq] at heq
                exact heq.1 ▸ List.mem_cons_self _ _
            | cons b l1 =>
                simp only [List.cons_append, List.cons.injEq] at heq
                refine List.mem_cons_of_mem a (ih.mpr ⟨l1, l2, heq.2, ?_, ?_⟩)
                · intro hk
                  rcases List.mem_cons.mp hk with hk | hk
                  · exact hpre b (List.mem_cons_self _ _) (heq.1 ▸ hk.symm) |>.elim
                  · exact hnot hk
                · exact fun o' h => hpre o' (List.mem_cons_of_mem b h)

theorem evenDimension_mod_two (q : ℚ) : evenDimension q % 2 = 0 := by
  simp only [evenDimension]
  split
  · assumption
  · omega

theorem jsRound_le_evenDimension (q : ℚ) :
    jsRound q ≤ evenDimension q ∧ evenDimension q ≤ jsRound q + 1 := by
  simp only [evenDimension]
  split <;> omega

/-! ## Specification-side definition for C1 -/

/-- Specification-side definition, following the claim's words: the even
integer nearest to `q`, with the larger of the two chosen when the two
nearest even integers are equidistant from `q`; computed as twice the
half-up rounding of `q / 2`.  The two lemmas `specNearestEven_window` and
`specNearestEven_unique` certify that this is exactly the even integer in
the half-open window `(q - 1, q + 1]`, which characterises
nearest-even-with-ties-up. -/
def specNearestEven (q : ℚ) : ℤ := 2 * ⌊q / 2 + 1/2⌋

theorem specNearestEven_window (q : ℚ) :
    specNearestEven q % 2 = 0 ∧
      q - 1 < (specNearestEven q : ℚ) ∧ (specNearestEven q : ℚ) ≤ q + 1 := by
  refine ⟨by simp [specNearestEven, Int.mul_emod_right], ?_, ?_⟩
  · have h := Int.lt_floor_add_one (q / 2 + 1/2)
    simp only [specNearestEven]
    push_cast
    linarith
  · have h := Int.floor_le (q / 2 + 1/2)
    simp only [specNearestEven]
    push_cast
    linarith

theorem specNearestEven_unique (q : ℚ) (m : ℤ) (hm : m % 2 = 0)
    (h1 : q - 1 < (m : ℚ)) (h2 : (m : ℚ) ≤ q + 1) : m = specNearestEven q := by
  obtain ⟨heven, hw1, hw2⟩ := specNearestEven_window q
  have hlt : ((m - specNearestEven q : ℤ) : ℚ) < 2 := by push_cast; linarith
  have hgt : ((-2 : ℤ) : ℚ) < ((m - specNearestEven q : ℤ) : ℚ) := by push_cast; linarith
  have hlt' : m - specNearestEven q < 2 := by exact_mod_cast hlt
  have hgt' : (-2 : ℤ) < m - specNearestEven q := by exact_mod_cast hgt
  omega

example : specNearestEven 3 = 4 := by norm_num [specNearestEven]
example : specNearestEven (5/2) = 2 := by norm_num [specNearestEven]
example : specNearestEven (7/2) = 4 := by norm_num [specNearestEven]

/-! ## Claims C1, C7, C8 -/

/-- C1, counterexample: for source dimensions 2×2 and factor 1.25 the scaled
dimension is 2.5; the option built by `buildResolutionOptions` has
width = height = 4, while the even integer nearest to 2.5 (larger on ties)
is 2 — so the built dimension is not the nearest even integer. -/
theorem c1_counterexample :
    (buildResolutionOptions 2 2).find? (fun o => o.value == "scale_125") =
      some { value := "scale_125", width := some 4, height := some 4 } ∧
    specNearestEven ((2 : ℚ) * 1.25) = 2 ∧
    ((4 : ℚ) ≠ ((2 : ℤ) : ℚ)) := by
  refine ⟨?_, by norm_num [specNearestEven], by norm_num⟩
  norm_num [buildResolutionOptions, resOptionCandidates, dedupeByKey, dimKey,
    evenDimension, jsRound]

/-- The built dimension as the claim must be amended to describe it: the
unique even integer in `[jsRound x, jsRound x + 1]`, i.e. the scaled
dimension rounded half-up to the nearest integer and then bumped up by one
when odd. -/
def IsRoundThenEvenUp (x : ℚ) (v : Option ℚ) : Prop :=
  ∃ a : ℤ, v = some (a : ℚ) ∧ a % 2 = 0 ∧ jsRound x ≤ a ∧ a ≤ jsRound x + 1

theorem isRoundThenEvenUp_evenDimension (x : ℚ) :
    IsRoundThenEvenUp x (some ((evenDimension x : ℤ) : ℚ)) :=
  ⟨evenDimension x, rfl, evenDimension_mod_two x,
    (jsRound_le_evenDimension x).1, (jsRound_le_evenDimension x).2⟩

/-- C1 (amended): for every positive integer source width and height and
every scaled preset (125%, 75%, 50%), each dimension of the option built by
`buildResolutionOptions` is the scaled source dimension rounded half-up to
the nearest integer and then rounded **up** to the next even integer when
odd (the unique even integer in `[round(x), round(x) + 1]`) — not the even
integer nearest to the scaled dimension. -/
theorem c1_amended (w h : ℤ) (hw : 0 < w) (hh : 0 < h) :
    ∀ o ∈ buildResolutionOptions (w : ℚ) (h : ℚ),
      (o.value = "scale_125" →
        IsRoundThenEvenUp ((w : ℚ) * 1.25) o.width ∧
        IsRoundThenEvenUp ((h : ℚ) * 1.25) o.height) ∧
      (o.value = "scale_75" →
        IsRoundThenEvenUp ((w : ℚ) * 0.75) o.width ∧
        IsRoundThenEvenUp ((h : ℚ) * 0.75) o.height) ∧
      (o.value = "scale_50" →
        IsRoundThenEvenUp ((w : ℚ) * 0.5) o.width ∧
        IsRoundThenEvenUp ((h : ℚ) * 0.5) o.height) := by
  intro o ho
  have hmem := mem_of_mem_dedupeByKey ho
  simp only [resOptionCandidates, List.mem_cons, List.mem_singleton,
    List.not_mem_nil, or_false] at hmem
  rcases hmem with rfl | rfl | rfl | rfl
  · exact ⟨fun _ => ⟨isRoundThenEvenUp_evenDimension _, isRoundThenEvenUp_evenDimension _⟩,
      fun hv => by simp at hv, fun hv => by simp at hv⟩
  · exact ⟨fun hv => by simp at hv, fun hv => by simp at hv, fun hv => by simp at hv⟩
  · exact ⟨fun hv => by simp at hv,
      fun _ => ⟨isRoundThenEvenUp_evenDimension _, isRoundThenEvenUp_evenDimension _⟩,
      fun hv => by simp at hv⟩
  · exact ⟨fun hv => by simp at hv, fun hv => by simp at hv,
      fun _ => ⟨isRoundThenEvenUp_evenDimension _, isRoundThenEvenUp_evenDimension _⟩⟩

/-- Closed instance of `c1_amended` at source dimensions 1920×1080. -/
theorem c1_amended_witness :
    (0 : ℤ) < 1920 ∧ (0 : ℤ) < 1080 ∧
    ∀ o ∈ buildResolutionOptions ((1920 : ℤ) : ℚ) ((1080 : ℤ) : ℚ),
      (o.value = "scale_125" →
        IsRoundThenEvenUp (((1920 : ℤ) : ℚ) * 1.25) o.width ∧
        IsRoundThenEvenUp (((1080 : ℤ) : ℚ) * 1.25) o.height) ∧
      (o.value = "scale_75" →
        IsRoundThenEvenUp (((1920 : ℤ) : ℚ) * 0.75) o.width ∧
        IsRoundThenEvenUp (((1080 : ℤ) : ℚ) * 0.75) o.height) ∧
      (o.value = "scale_50" →
        IsRoundThenEvenUp (((1920 : ℤ) : ℚ) * 0.5) o.width ∧
        IsRoundThenEvenUp (((1080 : ℤ) : ℚ) * 0.5) o.height) :=
  ⟨by norm_num, by norm_num, c1_amended 1920 1080 (by norm_num) (by norm_num)⟩

/-- C7: for every positive integer source dimensions, every scaled
(non-`"source"`) option produced by `buildResolutionOptions` has an even
width and an even height. -/
theorem c7_scaled_options_even (w h : ℤ) (hw : 0 < w) (hh : 0 < h) :
    ∀ o ∈ buildResolutionOptions (w : ℚ) (h : ℚ), o.value ≠ "source" →
      (∃ a : ℤ, o.width = some ((2 * a : ℤ) : ℚ)) ∧
      (∃ b : ℤ, o.height = some ((2 * b : ℤ) : ℚ)) := by
  intro o ho hsrc
  have hmem := mem_of_mem_dedupeByKey ho
  simp only [resOptionCandidates, List.mem_cons, List.mem_singleton,
    List.not_mem_nil, or_false] at hmem
  have heven : ∀ x : ℚ, ∃ a : ℤ,
      some ((evenDimension x : ℤ) : ℚ) = some ((2 * a : ℤ) : ℚ) := by
    intro x
    have := evenDimension_mod_two x
    exact ⟨evenDimension x / 2, by
      congr 1
      exact_mod_cast congrArg (fun z : ℤ => ((z : ℤ) : ℚ)) (by omega : evenDimension x = 2 * (evenDimension x / 2))⟩
  rcases hmem with rfl | rfl | rfl | rfl
  · exact ⟨heven _, heven _⟩
  · exact absurd rfl hsrc
  · exact ⟨heven _, heven _⟩
  · exact ⟨heven _, heven _⟩

/-- Closed instance of `c7_scaled_options_even` at source dimensions 854×480. -/
theorem c7_witness :
    (0 : ℤ) < 854 ∧ (0 : ℤ) < 480 ∧
    ∀ o ∈ buildResolutionOptions ((854 : ℤ) : ℚ) ((480 : ℤ) : ℚ),
      o.value ≠ "source" →
        (∃ a : ℤ, o.width = some ((2 * a : ℤ) : ℚ)) ∧
        (∃ b : ℤ, o.height = some ((2 * b : ℤ) : ℚ)) :=
  ⟨by norm_num, by norm_num, c7_scaled_options_even 854 480 (by norm_num) (by norm_num)⟩

/-- C8: for every positive integer source dimensions, the option list
returned by `buildResolutionOptions` has pairwise-distinct `(width, height)`
keys, and an option is in the list exactly when it occurs in the fixed
candidate order (125%, source, 75%, 50%) at a position not preceded by
another candidate with the same `(width, height)` key — the first occurrence
is kept and later duplicates are dropped. -/
theorem c8_dedup_first_occurrence (w h : ℤ) (hw : 0 < w) (hh : 0 < h) :
    ((buildResolutionOptions (w : ℚ) (h : ℚ)).map dimKey).Nodup ∧
    ∀ o : ResOption, o ∈ buildResolutionOptions (w : ℚ) (h : ℚ) ↔
      ∃ l1 l2, resOptionCandidates (w : ℚ) (h : ℚ) = l1 ++ o :: l2 ∧
        ∀ o' ∈ l1, dimKey o' ≠ dimKey o := by
  constructor
  · exact nodup_map_dimKey_dedupeByKey _ _
  · intro o
    rw [buildResolutionOptions, mem_dedupeByKey_iff]
    constructor
    · rintro ⟨l1, l2, heq, -, hpre⟩
      exact ⟨l1, l2, heq, hpre⟩
    · rintro ⟨l1, l2, heq, hpre⟩
      exact ⟨l1, l2, heq, List.not_mem_nil _, hpre⟩

/-- Closed instance of `c8_dedup_first_occurrence` at source dimensions 2×2
(where the 75% and 50% candidates collide with the source candidate and are
dropped). -/
theorem c8_witness :
    (0 : ℤ) < 2 ∧ (0 : ℤ) < 2 ∧
    (((buildResolutionOptions ((2 : ℤ) : ℚ) ((2 : ℤ) : ℚ)).map dimKey).Nodup ∧
    ∀ o : ResOption, o ∈ buildResolutionOptions ((2 : ℤ) : ℚ) ((2 : ℤ) : ℚ) ↔
      ∃ l1 l2, resOptionCandidates ((2 : ℤ) : ℚ) ((2 : ℤ) : ℚ) = l1 ++ o :: l2 ∧
        ∀ o' ∈ l1, dimKey o' ≠ dimKey o) :=
  ⟨by norm_num, by norm_num, c8_dedup_first_occurrence 2 2 (by norm_num) (by norm_num)⟩

/-! ## Claim C2 -/

/-- An app state on the custom-resolution path: a probed 1920×1080 / 30 fps /
5000 kbps video, custom resolution text width `"0"` and height `"-5"`. -/
def c2State : AppState :=
  { selectedFile := "in.mp4",
    mediaInfo := some
      { duration_seconds := 120, width := some 1920, height := some 1080,
        fps := some 30, bitrate_kbps := some 5000, has_video := true },
    startMs := 0, endMs := 120000,
    resolutionPreset := "custom", customWidth := "0", customHeight := "-5",
    resolutionOptions := buildResolutionOptions 1920 1080,
    sourceResolution := some (1920, 1080),
    fpsPreset := "source", customFps := "", sourceFps := some 30,
    videoBitratePreset := "source", customVideoBitrate := "",
    sourceVideoBitrate := some 5000,
    audioBitratePreset := "192", customAudioBitrate := "",
    sourceAudioBitrate := some 5000,
    outputDir := "out", outputFilename := "clip", format := "mp4",
    dragging := none }

/-- C2, counterexample: with the `"custom"` resolution preset, a width text
parsing to `0` (non-positive) resolves to `some 0` — the parsed number — and
a height text parsing to `-5` resolves to `some (-5)`; neither is absent, so
non-positive parses do not resolve to absent dimensions. -/
theorem c2_counterexample :
    jsParseIntDec c2State.customWidth = some 0 ∧
    (resolution c2State).width = some 0 ∧
    (resolution c2State).width ≠ none ∧
    jsParseIntDec c2State.customHeight = some (-5) ∧
    (resolution c2State).height = some (-5) := by
  have hw : jsParseIntDec "0" = some 0 := by decide
  have hh : jsParseIntDec "-5" = some (-5) := by decide
  have hb1 : ("scale_125" == "custom") = false := by decide
  have hb2 : ("source" == "custom") = false := by decide
  have hb3 : ("scale_75" == "custom") = false := by decide
  have hb4 : ("scale_50" == "custom") = false := by decide
  refine ⟨hw, ?_, ?_, hh, ?_⟩ <;>
    norm_num [resolution, c2State, buildResolutionOptions, resOptionCandidates,
      dedupeByKey, dimKey, evenDimension, jsRound, hw, hh, List.find?,
      hb1, hb2, hb3, hb4] <;> decide

/-- C2 (amended): on the custom path (the preset is absent from the option
list, or found with value `"custom"`), a resolved dimension is absent exactly
when the raw text parses to a non-finite number (`NaN`); a text parsing to
any finite integer — including zero and negative integers — resolves to that
number, not to an absent dimension. -/
theorem c2_amended (st : AppState)
    (hcustom :
      st.resolutionOptions.find? (fun p => p.value == st.resolutionPreset) = none ∨
      ∃ p, st.resolutionOptions.find? (fun p => p.value == st.resolutionPreset) = some p ∧
        p.value = "custom") :
    ((resolution st).width = none ↔ jsParseIntDec st.customWidth = none) ∧
    (∀ n : ℤ, jsParseIntDec st.customWidth = some n →
      (resolution st).width = some (n : ℚ)) ∧
    ((resolution st).height = none ↔ jsParseIntDec st.customHeight = none) ∧
    (∀ n : ℤ, jsParseIntDec st.customHeight = some n →
      (resolution st).height = some (n : ℚ)) := by
  have hres : resolution st =
      { width := (jsParseIntDec st.customWidth).map (fun n => (n : ℚ)),
        height := (jsParseIntDec st.customHeight).map (fun n => (n : ℚ)) } := by
    rcases hcustom with hnone | ⟨p, hfind, hval⟩
    · rw [resolution, hnone]
    · rw [resolution, hfind]
      simp [hval]
  rw [hres]
  cases hw : jsParseIntDec st.customWidth <;> cases hh : jsParseIntDec st.customHeight <;>
    simp [hw, hh]

/-- Closed instance of `c2_amended`: custom width text `"7"` resolves to
width 7, custom height text `"abc"` (a `NaN` parse) resolves to an absent
height. -/
theorem c2_amended_witness :
    (({ c2State with customWidth := "7", customHeight := "abc" } :
        AppState).resolutionOptions.find?
          (fun p => p.value == "custom") = none ∨
      ∃ p, ({ c2State with customWidth := "7", customHeight := "abc" } :
        AppState).resolutionOptions.find?
          (fun p => p.value == "custom") = some p ∧ p.value = "custom") ∧
    ((resolution { c2State with customWidth := "7", customHeight := "abc" }).width = none ↔
      jsParseIntDec "7" = none) ∧
    (∀ n : ℤ, jsParseIntDec "7" = some n →
      (resolution { c2State with customWidth := "7", customHeight := "abc" }).width =
        some (n : ℚ)) ∧
    ((resolution { c2State with customWidth := "7", customHeight := "abc" }).height = none ↔
      jsParseIntDec "abc" = none) ∧
    (∀ n : ℤ, jsParseIntDec "abc" = some n →
      (resolution { c2State with customWidth := "7", customHeight := "abc" }).height =
        some (n : ℚ)) := by
  have hfind : ({ c2State with customWidth := "7", customHeight := "abc" } :
      AppState).resolutionOptions.find? (fun p => p.value == "custom") = none := by
    have hb1 : ("scale_125" == "custom") = false := by decide
    have hb2 : ("source" == "custom") = false := by decide
    have hb3 : ("scale_75" == "custom") = false := by decide
    have hb4 : ("scale_50" == "custom") = false := by decide
    norm_num [c2State, buildResolutionOptions, resOptionCandidates,
      dedupeByKey, dimKey, evenDimension, jsRound, List.find?,
      hb1, hb2, hb3, hb4]
  exact ⟨Or.inl hfind, c2_amended _ (Or.inl hfind)⟩

/-! ## Claim C3 -/

/-- C3: for every pointer-move processed while a trim handle is active (media
duration positive, slider track of positive width), if the trim invariant
`0 ≤ startMs ∧ startMs + 100 ≤ endMs ∧ endMs ≤ durationMs` held before the
move, then after the move `0 ≤ startMs ≤ endMs − 100 ≤ durationMs` (and
`endMs ≤ durationMs`) still holds; moreover an active start move leaves
`endMs` unchanged and lands `startMs` in `[0, endMs − 100]`, and an active
end move leaves `startMs` unchanged and lands `endMs` in
`[startMs + 100, durationMs]`.  So the invariant holds after every move, not
only at pointer release. -/
theorem c3_trim_invariant_preserved (st st' : AppState)
    (clientX rectLeft rectWidth : ℚ)
    (hmove : st' = handlePointerMove st clientX rectLeft rectWidth)
    (hdrag : st.dragging.isSome = true) (hrect : 0 < rectWidth)
    (hdur : 0 < durationMs st)
    (h0 : 0 ≤ st.startMs) (hgap : st.startMs + 100 ≤ st.endMs)
    (hend : st.endMs ≤ durationMs st) :
    0 ≤ st'.startMs ∧ st'.startMs ≤ st'.endMs - 100 ∧
    st'.endMs - 100 ≤ durationMs st' ∧ st'.endMs ≤ durationMs st' ∧
    durationMs st' = durationMs st ∧
    (st.dragging = some DragHandle.start →
      st'.endMs = st.endMs ∧ 0 ≤ st'.startMs ∧ st'.startMs ≤ st.endMs - 100) ∧
    (st.dragging = some DragHandle.stop →
      st'.startMs = st.startMs ∧ st.startMs + 100 ≤ st'.endMs ∧
      st'.endMs ≤ durationMs st) := by
  obtain ⟨handle, hd⟩ := Option.isSome_iff_exists.mp hdrag
  have hdur' : ¬ durationMs st ≤ 0 := not_le.mpr hdur
  cases handle with
  | start =>
      have hst' : st' = { st with
          startMs := max 0 (min
            ((jsRound (min 1 (max 0 ((clientX - rectLeft) / rectWidth)) *
              durationMs st) : ℤ) : ℚ) (st.endMs - 100)) } := by
        simp only [hmove, handlePointerMove, hd, if_neg hdur']
      set ms : ℚ := ((jsRound (min 1 (max 0 ((clientX - rectLeft) / rectWidth)) *
          durationMs st) : ℤ) : ℚ) with hms
      have h1 : (0 : ℚ) ≤ max 0 (min ms (st.endMs - 100)) := le_max_left _ _
      have h2 : max 0 (min ms (st.endMs - 100)) ≤ st.endMs - 100 :=
        max_le (by linarith) (min_le_right _ _)
      have hdmeq : durationMs st' = durationMs st := by rw [hst']; rfl
      refine ⟨?_, ?_, ?_, ?_, hdmeq, ?_, ?_⟩
      · rw [hst']; exact h1
      · rw [hst']; exact h2
      · rw [hdmeq, hst']; dsimp only; linarith
      · rw [hdmeq, hst']; dsimp only; linarith
      · intro _; rw [hst']; exact ⟨rfl, h1, h2⟩
      · intro hcontra; rw [hd] at hcontra; simp at hcontra
  | stop =>
      have hst' : st' = { st with
          endMs := min (durationMs st) (max
            ((jsRound (min 1 (max 0 ((clientX - rectLeft) / rectWidth)) *
              durationMs st) : ℤ) : ℚ) (st.startMs + 100)) } := by
        simp only [hmove, handlePointerMove, hd, if_neg hdur']
      set ms : ℚ := ((jsRound (min 1 (max 0 ((clientX - rectLeft) / rectWidth)) *
          durationMs st) : ℤ) : ℚ) with hms
      have h1 : st.startMs + 100 ≤ min (durationMs st) (max ms (st.startMs + 100)) :=
        le_min (by linarith) (le_max_right _ _)
      have h2 : min (durationMs st) (max ms (st.startMs + 100)) ≤ durationMs st :=
        min_le_left _ _
      have hdmeq : durationMs st' = durationMs st := by rw [hst']; rfl
      refine ⟨?_, ?_, ?_, ?_, hdmeq, ?_, ?_⟩
      · rw [hst']; dsimp only; linarith
      · rw [hst']; dsimp only; linarith
      · rw [hdmeq, hst']; dsimp only; linarith
      · rw [hdmeq, hst']; dsimp only; linarith
      · intro hcontra; rw [hd] at hcontra; simp at hcontra
      · intro _; rw [hst']; exact ⟨rfl, h1, h2⟩

/-- A concrete trim state: 10-second media, trim window `[2000, 8000]` ms,
start handle active. -/
def c3State : AppState :=
  { selectedFile := "in.mp4",
    mediaInfo := some
      { duration_seconds := 10, width := some 1280, height := some 720,
        fps := some 30, bitrate_kbps := some 3000, has_video := true },
    startMs := 2000, endMs := 8000,
    resolutionPreset := "source", customWidth := "", customHeight := "",
    resolutionOptions := buildResolutionOptions 1280 720,
    sourceResolution := some (1280, 720),
    fpsPreset := "source", customFps := "", sourceFps := some 30,
    videoBitratePreset := "source", customVideoBitrate := "",
    sourceVideoBitrate := some 3000,
    audioBitratePreset := "192", customAudioBitrate := "",
    sourceAudioBitrate := some 3000,
    outputDir := "out", outputFilename := "clip", format := "mp4",
    dragging := some DragHandle.start }

/-- Closed instance of `c3_trim_invariant_preserved`: a start-handle move on
`c3State` to the middle of a 100-pixel-wide track. -/
theorem c3_witness :
    c3State.dragging.isSome = true ∧ (0 : ℚ) < 100 ∧
    0 < durationMs c3State ∧ 0 ≤ c3State.startMs ∧
    c3State.startMs + 100 ≤ c3State.endMs ∧ c3State.endMs ≤ durationMs c3State ∧
    (0 ≤ (handlePointerMove c3State 50 0 100).startMs ∧
     (handlePointerMove c3State 50 0 100).startMs ≤
       (handlePointerMove c3State 50 0 100).endMs - 100 ∧
     (handlePointerMove c3State 50 0 100).endMs - 100 ≤
       durationMs (handlePointerMove c3State 50 0 100) ∧
     (handlePointerMove c3State 50 0 100).endMs ≤
       durationMs (handlePointerMove c3State 50 0 100) ∧
     durationMs (handlePointerMove c3State 50 0 100) = durationMs c3State ∧
     (c3State.dragging = some DragHandle.start →
       (handlePointerMove c3State 50 0 100).endMs = c3State.endMs ∧
       0 ≤ (handlePointerMove c3State 50 0 100).startMs ∧
       (handlePointerMove c3State 50 0 100).startMs ≤ c3State.endMs - 100) ∧
     (c3State.dragging = some DragHandle.stop →
       (handlePointerMove c3State 50 0 100).startMs = c3State.startMs ∧
       c3State.startMs + 100 ≤ (handlePointerMove c3State 50 0 100).endMs ∧
       (handlePointerMove c3State 50 0 100).endMs ≤ durationMs c3State)) := by
  have hdur : durationMs c3State = 10000 := by
    norm_num [durationMs, c3State, jsRound]
  exact ⟨rfl, by norm_num, by rw [hdur]; norm_num, by norm_num [c3State],
    by norm_num [c3State], by rw [hdur]; norm_num [c3State],
    c3_trim_invariant_preserved c3State _ 50 0 100 rfl rfl (by norm_num)
      (by rw [hdur]; norm_num) (by norm_num [c3State]) (by norm_num [c3State])
      (by rw [hdur]; norm_num [c3State])⟩

/-! ## Claim C4 -/

/-- C4: the fps-ratio scaling of the video bitrate is advisory only.  For
every state in which a video bitrate value is resolved, the
`video_bitrate_kbps` field of every `run_conversion` payload is that
resolved value itself, unscaled; while the size estimate's
`effectiveVideoBitrate` equals `round(videoBitrateValue * fpsValue /
sourceFps)` whenever both fps values are known (present and nonzero) and the
run is not audio-only. -/
theorem c4_engine_bitrate_unscaled (st : AppState) (v : ℚ)
    (hv : videoBitrateValue st = some v) :
    (∀ opts : ConversionOptions, runConversionRequest st = some opts →
      opts.video_bitrate_kbps = some v) ∧
    (∀ sf f : ℚ, st.sourceFps = some sf → sf ≠ 0 →
      fpsValue st = some f → f ≠ 0 → isAudioOnly st = false → v ≠ 0 →
      effectiveVideoBitrate st = ((jsRound (v * (f / sf)) : ℤ) : ℚ)) := by
  constructor
  · intro opts hopts
    rw [runConversionRequest] at hopts
    split at hopts
    · exact absurd hopts (by simp)
    · split at hopts
      · exact absurd hopts (by simp)
      · obtain rfl := Option.some.inj hopts
        exact hv
  · intro sf f hsf hsf0 hf hf0 haud hv0
    simp [effectiveVideoBitrate, haud, hv, hsf, hf, hv0, hsf0, hf0]

/-- A state where a 4000 kbps preset is resolved, the source is 30 fps and
the chosen preset is 60 fps, so the estimate's effective bitrate is scaled
to 8000 while the engine field stays 4000. -/
def c4State : AppState :=
  { selectedFile := "in.mp4",
    mediaInfo := some
      { duration_seconds := 120, width := some 1920, height := some 1080,
        fps := some 30, bitrate_kbps := some 5000, has_video := true },
    startMs := 0, endMs := 120000,
    resolutionPreset := "source", customWidth := "", customHeight := "",
    resolutionOptions := buildResolutionOptions 1920 1080,
    sourceResolution := some (1920, 1080),
    fpsPreset := "60", customFps := "", sourceFps := some 30,
    videoBitratePreset := "4000", customVideoBitrate := "",
    sourceVideoBitrate := some 5000,
    audioBitratePreset := "192", customAudioBitrate := "",
    sourceAudioBitrate := some 5000,
    outputDir := "out", outputFilename := "clip", format := "mp4",
    dragging := none }

/-- Closed instance of `c4_engine_bitrate_unscaled` at `c4State`. -/
theorem c4_witness :
    videoBitrateValue c4State = some 4000 ∧
    ((∀ opts : ConversionOptions, runConversionRequest c4State = some opts →
      opts.video_bitrate_kbps = some 4000) ∧
    (∀ sf f : ℚ, c4State.sourceFps = some sf → sf ≠ 0 →
      fpsValue c4State = some f → f ≠ 0 → isAudioOnly c4State = false →
      (4000 : ℚ) ≠ 0 →
      effectiveVideoBitrate c4State = ((jsRound (4000 * (f / sf)) : ℤ) : ℚ))) := by
  have hv : videoBitrateValue c4State = some 4000 := by decide
  exact ⟨hv, c4_engine_bitrate_unscaled c4State 4000 hv⟩

/-! ## Claims C5 and C6 -/

/-- The spec's worked example: a probed 1920×1080, 30 fps, 5000 kbps,
120-second video; 50% resolution preset (960×540), 4000 kbps video preset,
`"source"` fps, a 60-second trim, 128 kbps audio, MP4 container
(size multiplier 1). -/
def c5State : AppState :=
  { selectedFile := "in.mp4",
    mediaInfo := some
      { duration_seconds := 120, width := some 1920, height := some 1080,
        fps := some 30, bitrate_kbps := some 5000, has_video := true },
    startMs := 0, endMs := 60000,
    resolutionPreset := "scale_50", customWidth := "", customHeight := "",
    resolutionOptions := buildResolutionOptions 1920 1080,
    sourceResolution := some (1920, 1080),
    fpsPreset := "source", customFps := "", sourceFps := some 30,
    videoBitratePreset := "4000", customVideoBitrate := "",
    sourceVideoBitrate := some 5000,
    audioBitratePreset := "128", customAudioBitrate := "",
    sourceAudioBitrate := some 5000,
    outputDir := "out", outputFilename := "clip", format := "mp4",
    dragging := none }

theorem c5_resolution : resolution c5State = { width := some 960, height := some 540 } := by
  have hb1 : ("scale_125" == "scale_50") = false := by decide
  have hb2 : ("source" == "scale_50") = false := by decide
  have hb3 : ("scale_75" == "scale_50") = false := by decide
  have hb4 : ("scale_50" == "scale_50") = true := by decide
  have hb5 : ("scale_50" == "custom") = false := by decide
  norm_num [resolution, c5State, buildResolutionOptions, resOptionCandidates,
    dedupeByKey, dimKey, evenDimension, jsRound, List.find?, hb1, hb2, hb3, hb4, hb5]

theorem c5_resolutionScale : resolutionScale c5State = 1/4 := by
  have haud : isAudioOnly c5State = false := by decide
  have hsr : c5State.sourceResolution = some (1920, 1080) := rfl
  rw [resolutionScale, c5_resolution]
  simp only [hsr, haud]
  norm_num [min_def, max_def]

theorem c5_effectiveVideoBitrate : effectiveVideoBitrate c5State = 4000 := by
  have haud : isAudioOnly c5State = false := by decide
  have hvb : videoBitrateValue c5State = some 4000 := by decide
  have hfps : fpsValue c5State = some 30 := by decide
  have hsf : c5State.sourceFps = some 30 := by decide
  rw [effectiveVideoBitrate, haud, hvb]
  norm_num [hfps, hsf, jsRound]

theorem c5_totalKbps : totalKbps c5State = 1128 := by
  have hab : audioBitrateValue c5State = some 128 := by decide
  rw [totalKbps, c5_effectiveVideoBitrate, c5_resolutionScale, hab]
  norm_num

theorem c5_bytes : estimatedSizeBytes c5State = some 8460000 := by
  have hclip : clipLengthSeconds c5State = 60 := by
    norm_num [clipLengthSeconds, c5State, max_def]
  have hmult : formatSizeMultiplier c5State = 1 := by decide
  rw [estimatedSizeBytes, hclip, c5_totalKbps, hmult]
  norm_num

/-- C5, counterexample: in the spec's worked example the resolution scale is
`0.25`, which lies inside the clamp interval `[0.2, 1.5]` and is therefore
**not** clamped to `0.2`; the estimate is `(4000·0.25 + 128)·1000·60/8 =
8 460 000` bytes (≈ 8.07 MB), not the claimed
`((4000·0.2 + 128)·1000·60)/8 = 6 960 000` bytes (which itself is ≈ 6.64 MB,
not ≈ 6.98 MB). -/
theorem c5_counterexample :
    resolutionScale c5State = 1/4 ∧ ¬resolutionScale c5State = 1/5 ∧
    ((4000 * (1/5 : ℚ) + 128) * 1000 * 60) / 8 = 6960000 ∧
    estimatedSizeBytes c5State = some 8460000 ∧
    ¬estimatedSizeBytes c5State = some 6960000 := by
  refine ⟨c5_resolutionScale, ?_, by norm_num, c5_bytes, ?_⟩
  · rw [c5_resolutionScale]; norm_num
  · rw [c5_bytes]; simp

/-- C5 (amended): in the spec's worked example the resolution scale is
`(960·540)/(1920·1080) = 0.25` (inside the clamp bounds, so unchanged by
clamping), and the size estimate is `((4000·0.25 + 128)·1000·60)/8 =
8 460 000` bytes, i.e. `8 460 000/1 048 576 ≈ 8.07` MB. -/
theorem c5_amended :
    resolutionScale c5State = (960 * 540 : ℚ) / (1920 * 1080) ∧
    (1/5 : ℚ) ≤ (960 * 540 : ℚ) / (1920 * 1080) ∧
    (960 * 540 : ℚ) / (1920 * 1080) ≤ 3/2 ∧
    estimatedSizeBytes c5State = some (((4000 * ((960 * 540 : ℚ) / (1920 * 1080)) + 128) * 1000 * 60) / 8) ∧
    ((4000 * ((960 * 540 : ℚ) / (1920 * 1080)) + 128) * 1000 * 60) / 8 = 8460000 ∧
    |(8460000 : ℚ) / 1048576 - 807/100| < 1/100 := by
  refine ⟨by rw [c5_resolutionScale]; norm_num, by norm_num, by norm_num, ?_,
    by norm_num, by rw [abs_sub_lt_iff]; constructor <;> norm_num⟩
  rw [c5_bytes]
  norm_num

/-- Every entry of the fixed per-container multiplier table is positive. -/
theorem formatSizeMultiplier_pos (st : AppState) : 0 < formatSizeMultiplier st := by
  rw [formatSizeMultiplier]
  split_ifs <;> norm_num

/-- C6: the size estimator yields the unknown placeholder exactly when the
clip length is zero or the total kbps is zero; whenever both are positive it
yields the finite positive byte count
`totalKbps * formatMultiplier * 1000 * clipLengthSeconds / 8`. -/
theorem c6_estimator_placeholder_iff (st : AppState) :
    (estimatedSizeBytes st = none ↔
      clipLengthSeconds st = 0 ∨ totalKbps st = 0) ∧
    (0 < clipLengthSeconds st → 0 < totalKbps st →
      estimatedSizeBytes st =
        some (totalKbps st * formatSizeMultiplier st * 1000 * clipLengthSeconds st / 8) ∧
      0 < totalKbps st * formatSizeMultiplier st * 1000 * clipLengthSeconds st / 8) := by
  constructor
  · by_cases h1 : clipLengthSeconds st = 0 <;> by_cases h2 : totalKbps st = 0 <;>
      simp [estimatedSizeBytes, h1, h2]
  · intro h1 h2
    have h1' : clipLengthSeconds st ≠ 0 := ne_of_gt h1
    have h2' : totalKbps st ≠ 0 := ne_of_gt h2
    refine ⟨by simp [estimatedSizeBytes, h1', h2'], ?_⟩
    have hm := formatSizeMultiplier_pos st
    positivity

/-- Closed instance of `c6_estimator_placeholder_iff` at the worked-example
state (clip 60 s, total 1128 kbps). -/
theorem c6_witness :
    ((estimatedSizeBytes c5State = none ↔
      clipLengthSeconds c5State = 0 ∨ totalKbps c5State = 0) ∧
    (0 < clipLengthSeconds c5State → 0 < totalKbps c5State →
      estimatedSizeBytes c5State =
        some (totalKbps c5State * formatSizeMultiplier c5State * 1000 *
          clipLengthSeconds c5State / 8) ∧
      0 < totalKbps c5State * formatSizeMultiplier c5State * 1000 *
        clipLengthSeconds c5State / 8)) :=
  c6_estimator_placeholder_iff c5State

/-! ## Claim C9 -/

theorem supRunFrom_of_reported (p : String) (t : Terminal) :
    ∀ (events : List SupEvent) (st : SupState), st.reported = some t →
      supRunFrom p st events = [] := by
  intro events
  induction events with
  | nil => intro st _; rfl
  | cons e rest ih =>
      intro st hrep
      rw [supRunFrom, supStep.eq_def, hrep]
      dsimp only
      exact ih st hrep

/-- The supervisor state after processing a list of events. -/
def supExec (p : String) (st : SupState) : List SupEvent → SupState
  | [] => st
  | e :: rest => supExec p (supStep p st e).1 rest

theorem supExec_noend (p : String) :
    ∀ (l : List SupEvent) (st : SupState), st.reported = none →
      (∀ e ∈ l, isProcEnd e = false) →
      (supExec p st l).reported = none ∧
      ((supExec p st l).cancelRequested = true ↔
        st.cancelRequested = true ∨ SupEvent.cancelRequest ∈ l) ∧
      supRunFrom p st l = [] := by
  intro l
  induction l with
  | nil => intro st hrep _; simp [supExec, supRunFrom, hrep]
  | cons e rest ih =>
      intro st hrep hnoend
      have he : isProcEnd e = false := hnoend e (List.mem_cons_self _ _)
      cases e with
      | cancelRequest =>
          have hstep : supStep p st SupEvent.cancelRequest =
              ({ st with cancelRequested := true }, none) := by
            rw [supStep.eq_def, hrep]
          obtain ⟨h1, h2, h3⟩ := ih { st with cancelRequested := true } hrep
            (fun e he => hnoend e (List.mem_cons_of_mem _ he))
          refine ⟨?_, ?_, ?_⟩
          · rw [supExec, hstep]; exact h1
          · rw [supExec, hstep]
            simp only [h2]
            simp [List.mem_cons]
          · rw [supRunFrom, hstep]
            dsimp only
            exact h3
      | spawnFail tail => simp [isProcEnd] at he
      | procExit code tail => simp [isProcEnd] at he

theorem supRunFrom_append (p : String) :
    ∀ (l1 l2 : List SupEvent) (st : SupState),
      supRunFrom p st (l1 ++ l2) =
        supRunFrom p st l1 ++ supRunFrom p (supExec p st l1) l2 := by
  intro l1
  induction l1 with
  | nil => intro l2 st; rfl
  | cons e rest ih =>
      intro l2 st
      rw [List.cons_append, supRunFrom, supRunFrom, supExec]
      rcases hstep : supStep p st e with ⟨st', r⟩
      cases r with
      | none => simp only [ih]
      | some t => simp only [List.cons_append, ih]

/-- C9: a conversion run whose event trace contains exactly one run-ending
event (a process exit or a spawn failure), with cancellation requests
interleaved anywhere, reports exactly one terminal state — never zero, never
two.  Moreover, when the run ends by a process exit preceded only by
non-ending events, the unique terminal state is `Cancelled` if a
cancellation was requested before the exit, otherwise `Succeeded(outputPath)`
on exit code zero and `Failed(diagnosticTail)` on a nonzero code; a run
ending in a spawn failure reports `Failed`.  (The supervisor lives in the
Tauri backend, outside the frontend tree; modelled from the spec.) -/
theorem c9_exactly_one_terminal (p : String) (events : List SupEvent)
    (hone : events.countP (fun e => isProcEnd e) = 1) :
    (supRun p events).length = 1 ∧
    (∀ pre post code tail,
      events = pre ++ SupEvent.procExit code tail :: post →
      (∀ e ∈ pre, isProcEnd e = false) →
      supRun p events =
        [ if SupEvent.cancelRequest ∈ pre then Terminal.cancelled
          else if code = 0 then Terminal.succeeded p
          else Terminal.failed tail ]) ∧
    (∀ pre post tail,
      events = pre ++ SupEvent.spawnFail tail :: post →
      (∀ e ∈ pre, isProcEnd e = false) →
      supRun p events = [Terminal.failed tail]) := by
  refine ⟨?_, ?_, ?_⟩
  · -- exactly one terminal state, by induction over the trace
    suffices h : ∀ (l : List SupEvent) (st : SupState), st.reported = none →
        l.countP (fun e => isProcEnd e) = 1 → (supRunFrom p st l).length = 1 by
      exact h events _ rfl hone
    intro l
    induction l with
    | nil =>
        intro st _ hcount
        rw [List.countP_nil] at hcount
        exact absurd hcount (by decide)
    | cons e rest ih =>
        intro st hrep hcount
        rw [List.countP_cons] at hcount
        cases e with
        | cancelRequest =>
            have hstep : supStep p st SupEvent.cancelRequest =
                ({ st with cancelRequested := true }, none) := by
              rw [supStep.eq_def, hrep]
            rw [supRunFrom, hstep]
            dsimp only
            simp [isProcEnd] at hcount
            exact ih _ hrep hcount
        | spawnFail tail =>
            have hstep : supStep p st (SupEvent.spawnFail tail) =
                ({ st with reported := some (Terminal.failed tail) },
                  some (Terminal.failed tail)) := by
              rw [supStep.eq_def, hrep]
            rw [supRunFrom, hstep]
            dsimp only
            rw [supRunFrom_of_reported p (Terminal.failed tail) rest _ rfl]
            rfl
        | procExit code tail =>
            rw [supRunFrom, supStep.eq_def, hrep]
            dsimp only
            rw [supRunFrom_of_reported p _ rest _ rfl]
            rfl
  · rintro pre post code tail rfl hnoend
    obtain ⟨h1, h2, h3⟩ := supExec_noend p pre
      { cancelRequested := false, reported := none } rfl hnoend
    rw [supRun, supRunFrom_append, h3, List.nil_append, supRunFrom, supStep.eq_def, h1]
    dsimp only
    rw [supRunFrom_of_reported p _ post _ rfl]
    by_cases hc : SupEvent.cancelRequest ∈ pre
    · have : (supExec p { cancelRequested := false, reported := none } pre).cancelRequested
          = true := h2.mpr (Or.inr hc)
      rw [this, if_pos hc]
      simp
    · have : (supExec p { cancelRequested := false, reported := none } pre).cancelRequested
          = false := by
        cases hcr : (supExec p { cancelRequested := false, reported := none } pre).cancelRequested
        · rfl
        · rcases h2.mp hcr with h | h
          · exact absurd h (by simp)
          · exact absurd h hc
      rw [this, if_neg hc]
      rfl
  · rintro pre post tail rfl hnoend
    obtain ⟨h1, h2, h3⟩ := supExec_noend p pre
      { cancelRequested := false, reported := none } rfl hnoend
    rw [supRun, supRunFrom_append, h3, List.nil_append, supRunFrom, supStep.eq_def, h1]
    dsimp only
    rw [supRunFrom_of_reported p _ post _ rfl]

/-- Closed instance of `c9_exactly_one_terminal`: a cancellation request
racing ahead of a natural zero-code exit still yields exactly one terminal
state, and it is `Cancelled`. -/
theorem c9_witness :
    ([SupEvent.cancelRequest, SupEvent.procExit 0 "t"].countP
      (fun e => isProcEnd e) = 1) ∧
    (supRun "out.mp4" [SupEvent.cancelRequest, SupEvent.procExit 0 "t"]).length = 1 ∧
    supRun "out.mp4" [SupEvent.cancelRequest, SupEvent.procExit 0 "t"] =
      [Terminal.cancelled] := by
  have hone : ([SupEvent.cancelRequest, SupEvent.procExit 0 "t"].countP
      (fun e => isProcEnd e) = 1) := by decide
  obtain ⟨hlen, hmap, -⟩ := c9_exactly_one_terminal "out.mp4"
    [SupEvent.cancelRequest, SupEvent.procExit 0 "t"] hone
  refine ⟨hone, hlen, ?_⟩
  have := hmap [SupEvent.cancelRequest] [] 0 "t" rfl (by decide)
  rw [this]
  simp

/-! ## Claim C10 -/

/-- C10: in every `run_conversion` payload of the revised component, at most
one of `video_codec` / `audio_codec` is non-null: `video_codec` is non-null
only when codec selection is enabled, the run is not audio-only and a codec
is selected; `audio_codec` only when codec selection is enabled, the run is
audio-only and a codec is selected; with codec selection disabled both are
null. -/
theorem c10_codec_fields_exclusive (cs : CodecState) :
    ¬((videoCodecField cs).isSome = true ∧ (audioCodecField cs).isSome = true) ∧
    (∀ c, videoCodecField cs = some c →
      cs.enableCodecSelection = true ∧ isAudioOnlyV2 cs = false ∧
      c = cs.selectedCodec ∧ cs.selectedCodec ≠ "") ∧
    (∀ c, audioCodecField cs = some c →
      cs.enableCodecSelection = true ∧ isAudioOnlyV2 cs = true ∧
      c = cs.selectedCodec ∧ cs.selectedCodec ≠ "") ∧
    (cs.enableCodecSelection = false →
      videoCodecField cs = none ∧ audioCodecField cs = none) := by
  rcases cs with ⟨hv, fa, en, sel, fmt⟩
  cases en <;> cases hv <;> cases fa <;> by_cases hs : sel = "" <;>
    simp_all [videoCodecField, audioCodecField, isAudioOnlyV2]

/-- Closed instance of `c10_codec_fields_exclusive`: codec selection enabled
on a video run with `libx264` selected. -/
theorem c10_witness :
    let cs : CodecState :=
      { hasVideoSource := true, forceAudioOnly := false,
        enableCodecSelection := true, selectedCodec := "libx264",
        format := "mp4" }
    ¬((videoCodecField cs).isSome = true ∧ (audioCodecField cs).isSome = true) ∧
    (∀ c, videoCodecField cs = some c →
      cs.enableCodecSelection = true ∧ isAudioOnlyV2 cs = false ∧
      c = cs.selectedCodec ∧ cs.selectedCodec ≠ "") ∧
    (∀ c, audioCodecField cs = some c →
      cs.enableCodecSelection = true ∧ isAudioOnlyV2 cs = true ∧
      c = cs.selectedCodec ∧ cs.selectedCodec ≠ "") ∧
    (cs.enableCodecSelection = false →
      videoCodecField cs = none ∧ audioCodecField cs = none) :=
  c10_codec_fields_exclusive _

end XhMPEG
